import Mathlib

/-!
Verification development for the fleascope-rs oscilloscope driver.

The Rust sources are embedded shallowly: f64 arithmetic is modelled by exact
rational arithmetic (ℚ), machine integers by ℤ/ℕ, fallible functions by
Except, and byte buffers by lists of naturals.  Definitions follow the
source functions in src/src/flea_scope.rs, src/src/trigger_config.rs and
src/src/serial_terminal.rs; each definition carries a comment naming the
function it embeds.
-/

deriving instance DecidableEq for Except

namespace FleaScopeRs

/-- Truncation toward zero, the semantics of the Rust cast from f64 to i32
(floor for nonnegative values, ceiling for negative ones). -/
def ratTrunc (q : ℚ) : ℤ := if 0 ≤ q then ⌊q⌋ else ⌈q⌉

/-- Embedding of std::time::Duration as a total nanosecond count. -/
structure Duration where
  nanos : ℕ
deriving DecidableEq

/-- Duration::as_secs_f64, modelled exactly in ℚ. -/
def Duration.asSecsF64 (d : Duration) : ℚ := (d.nanos : ℚ) / 1000000000

/-- Duration::as_secs (whole seconds, truncating). -/
def Duration.asSecs (d : Duration) : ℕ := d.nanos / 1000000000

/-- Duration::as_micros (whole microseconds, truncating). -/
def Duration.asMicros (d : Duration) : ℕ := d.nanos / 1000

def Duration.fromMillis (n : ℕ) : Duration := ⟨n * 1000000⟩

def Duration.fromMicros (n : ℕ) : Duration := ⟨n * 1000⟩

def Duration.fromSecs (n : ℕ) : Duration := ⟨n * 1000000000⟩

/-- Error enum FleaScopeError from src/src/flea_scope.rs. -/
inductive FleaScopeError
  | negativeTimeFrame
  | timeFrameTooLarge
  | timeFrameTooSmall
  | negativeDelay
  | delayTooLarge
  | delaySamplesTooLarge (samples : ℤ)
  | invalidTicksPerSample
  | invalidPrescalerLow
  | invalidPrescalerHigh
  | calibrationNotSet
  | calibrationValuesEqual (multiplier : ℤ) (value : ℚ)
  | zeroCalibrationRequired
  | signalNotStable (min max : ℚ)
  | dataParsing (msg : String)
deriving DecidableEq

/-- FleaScope::MSPS (target sample rate, million samples per second). -/
def MSPS : ℚ := 18

/-- FleaScope::MCU_MHZ. -/
def MCU_MHZ : ℚ := 120

/-- FleaScope::INTERLEAVE. -/
def INTERLEAVE : ℚ := 5

/-- FleaScope::TOTAL_SAMPLES. -/
def TOTAL_SAMPLES : ℚ := 2000

/-- FleaScope::number1_to_prescaler. -/
def number1ToPrescaler (number1 : ℤ) : Except FleaScopeError ℤ :=
  let ps : ℤ := if number1 > 1000 then 16 else 1
  let t : ℤ := ratTrunc (MCU_MHZ * (number1 : ℚ) * INTERLEAVE / (ps : ℚ) / MSPS + 1/2)
  if t ≤ 0 then .error .invalidPrescalerLow
  else if t > 65535 then .error .invalidPrescalerHigh
  else .ok (ps * t)

/-- FleaScope::prescaler_to_effective_msps. -/
def prescalerToEffectiveMsps (prescaler : ℤ) : ℚ :=
  MCU_MHZ * INTERLEAVE / (prescaler : ℚ)

/-- The scope command assembled by FleaScope::raw_read: the integers and the
trigger clause interpolated into the string "scope number1 trigger delay". -/
structure ScopeCmd where
  number1 : ℤ
  triggerFields : String
  delaySamples : ℤ
deriving DecidableEq

/-- FleaScope::raw_read up to the point the scope command is issued on the
serial link.  A returned error means the function bails out before any
command is written to the device; .ok carries the issued command.  The
response-parsing tail (polars CSV decoding) is outside the claims and
outside this embedding. -/
def rawRead (timeFrame : Duration) (triggerFields : String) (delay? : Option Duration) :
    Except FleaScopeError ScopeCmd :=
  let delay := delay?.getD ⟨0⟩
  if timeFrame.asSecsF64 < 0 then .error .negativeTimeFrame
  else if timeFrame.asSecsF64 > 349/100 then .error .timeFrameTooLarge
  else if timeFrame.asSecs = 0 ∧ timeFrame.asMicros < 111 then .error .timeFrameTooSmall
  else if delay.asSecsF64 < 0 then .error .negativeDelay
  else if delay.asSecsF64 > 1 then .error .delayTooLarge
  else
    let number1 : ℤ := ratTrunc (MSPS * (timeFrame.asMicros : ℚ) / TOTAL_SAMPLES)
    if number1 ≤ 0 then .error .invalidTicksPerSample
    else
      match number1ToPrescaler number1 with
      | .error e => .error e
      | .ok prescaler =>
        let effectiveMsps := prescalerToEffectiveMsps prescaler
        let delaySamples : ℤ := ratTrunc ((delay.asMicros : ℚ) * effectiveMsps / 1000000)
        if delaySamples > 1000000 then .error (.delaySamplesTooLarge delaySamples)
        else .ok ⟨number1, triggerFields, delaySamples⟩

/-- struct FleaProbe from src/src/flea_scope.rs: multiplier plus the two
optional calibration terms (cal_zero is the raw value for 0V, cal_3v3 the
raw-unit span between 0V and 3.3V). -/
structure FleaProbe where
  multiplier : ℤ
  calZero : Option ℚ
  cal3v3 : Option ℚ
deriving DecidableEq

/-- FleaProbe::new. -/
def FleaProbe.new (multiplier : ℤ) : FleaProbe := ⟨multiplier, none, none⟩

/-- FleaProbe::raw_to_voltage.  The Rust function builds a polars column
expression; it is embedded as the pointwise rational function the
expression denotes. -/
def FleaProbe.rawToVoltage (p : FleaProbe) (rawValue : ℚ) : Except FleaScopeError ℚ :=
  match p.calZero, p.cal3v3 with
  | some calZero, some cal3v3 => .ok ((rawValue - calZero) / cal3v3 * (33/10))
  | _, _ => .error .calibrationNotSet

/-- FleaProbe::voltage_to_raw. -/
def FleaProbe.voltageToRaw (p : FleaProbe) (voltage : ℚ) : Except FleaScopeError ℚ :=
  match p.calZero, p.cal3v3 with
  | some calZero, some cal3v3 => .ok (voltage / (33/10) * cal3v3 + calZero)
  | _, _ => .error .calibrationNotSet

/-- f64::EPSILON as an exact rational. -/
def f64Epsilon : ℚ := 1 / 2 ^ 52

/-- FleaProbe::read_calibration_from_flash, from the point where the two
flash variables have been printed and parsed: the inputs are the two raw
i32 values.  The function decodes them, stores them, and rejects the pair
when the decoded values coincide (the Rust code compares the decoded
fields, after the offsets are removed, against f64::EPSILON). -/
def FleaProbe.readCalibrationFromFlash (p : FleaProbe) (calZeroRaw cal3v3Raw : ℤ) :
    Except FleaScopeError FleaProbe :=
  let calZero : ℚ := ((calZeroRaw : ℚ) - 1000) + 2048
  let cal3v3 : ℚ := ((cal3v3Raw : ℚ) - 1000) / (p.multiplier : ℚ)
  if |calZero - cal3v3| < f64Epsilon then
    .error (.calibrationValuesEqual p.multiplier calZero)
  else
    .ok { p with calZero := some calZero, cal3v3 := some cal3v3 }

/-- FleaScope::calibrate_zero, for the selected probe.  The device
round-trip (raw_read followed by collecting the bnc column) is modelled by
passing in the list of sampled raw values; everything after the collection
follows the source line by line.  The f64 INFINITY fold initialisers are
modelled by folding from the head of the (nonempty) list, which computes
the same min and max. -/
def calibrateZero (p : FleaProbe) (bncValues : List ℚ) :
    Except FleaScopeError (FleaProbe × ℚ) :=
  let rawValue3v3 : Option ℚ :=
    if p.calZero.isSome ∧ p.cal3v3.isSome then (p.voltageToRaw (33/10)).toOption
    else none
  match bncValues with
  | [] => .error (.dataParsing "No data received")
  | v :: rest =>
    let minVal := (v :: rest).foldl min v
    let maxVal := (v :: rest).foldl max v
    if maxVal - minVal > 14 then .error (.signalNotStable minVal maxVal)
    else
      let calZero := ((v :: rest).foldl (· + ·) 0) / ((v :: rest).length : ℚ)
      let p' : FleaProbe :=
        { p with
          calZero := some calZero
          cal3v3 :=
            match rawValue3v3 with
            | some raw3v3 => some (raw3v3 - calZero)
            | none => p.cal3v3 }
      .ok (p', calZero)

/-- enum BitState from src/src/trigger_config.rs. -/
inductive BitState
  | High
  | Low
  | DontCare
deriving DecidableEq

/-- enum DigitalTriggerBehavior. -/
inductive DigitalTriggerBehavior
  | Auto
  | While
  | Start
  | Stop
deriving DecidableEq

/-- DigitalTriggerBehavior::as_str. -/
def DigitalTriggerBehavior.asStr : DigitalTriggerBehavior → String
  | .Auto => "~"
  | .While => ""
  | .Start => "+"
  | .Stop => "-"

/-- enum AnalogTriggerBehavior. -/
inductive AnalogTriggerBehavior
  | Auto
  | Level
  | Rising
  | Falling
deriving DecidableEq

/-- AnalogTriggerBehavior::as_str. -/
def AnalogTriggerBehavior.asStr : AnalogTriggerBehavior → String
  | .Auto => "~"
  | .Level => ""
  | .Rising => "+"
  | .Falling => "-"

/-- struct DigitalTrigger: the 9-element bit-state array is a function on
Fin 9. -/
structure DigitalTrigger where
  bitStates : Fin 9 → BitState
  behavior : DigitalTriggerBehavior

/-- struct BitTriggerBuilder (only the bit-state array). -/
def BitTriggerBuilder := Fin 9 → BitState

/-- BitTriggerBuilder::new (all bits DontCare). -/
def BitTriggerBuilder.new : BitTriggerBuilder := fun _ => .DontCare

/-- BitTriggerBuilder::set_bit.  The Fin 9 index encodes the in-range
requirement the Rust code enforces at run time. -/
def BitTriggerBuilder.setBit (b : BitTriggerBuilder) (bit : Fin 9) (state : BitState) :
    BitTriggerBuilder :=
  Function.update b bit state

/-- BitTriggerBuilder::is_matching. -/
def BitTriggerBuilder.isMatching (b : BitTriggerBuilder) : DigitalTrigger :=
  ⟨b, .While⟩

/-- The first loop of DigitalTrigger::into_trigger_fields: OR together
1 << i for every bit position whose state is not DontCare. -/
def relevantBits (s : Fin 9 → BitState) : ℕ :=
  (List.finRange 9).foldl
    (fun acc i => if s i ≠ BitState.DontCare then acc ||| (1 <<< (i : ℕ)) else acc) 0

/-- The second loop of DigitalTrigger::into_trigger_fields: OR together
1 << i for every bit position whose state is High. -/
def activeBits (s : Fin 9 → BitState) : ℕ :=
  (List.finRange 9).foldl
    (fun acc i => if s i = BitState.High then acc ||| (1 <<< (i : ℕ)) else acc) 0

/-- Rust format specifier {:02x}: lowercase hexadecimal, left padded with
zeros to width two. -/
def hex02 (n : ℕ) : String :=
  let ds := Nat.toDigits 16 n
  ⟨List.replicate (2 - ds.length) '0' ++ ds⟩

/-- DigitalTrigger::into_trigger_fields. -/
def DigitalTrigger.intoTriggerFields (t : DigitalTrigger) : String :=
  t.behavior.asStr ++ "0x" ++ hex02 (activeBits t.bitStates) ++ " 0x" ++
    hex02 (relevantBits t.bitStates)

/-- Error produced by AnalogTrigger::into_trigger_fields; the Rust code
returns a formatted message mentioning the level, embedded here as a typed
value carrying that level. -/
inductive TriggerError
  | voltageOutOfRange (level : ℚ)
deriving DecidableEq

/-- struct AnalogTrigger. -/
structure AnalogTrigger where
  level : ℚ
  behavior : AnalogTriggerBehavior
deriving DecidableEq

/-- AnalogTriggerBuilder::rising_edge. -/
def AnalogTrigger.risingEdge (volts : ℚ) : AnalogTrigger := ⟨volts, .Rising⟩

/-- AnalogTriggerBuilder::level. -/
def AnalogTrigger.atLevel (volts : ℚ) : AnalogTrigger := ⟨volts, .Level⟩

/-- AnalogTrigger::into_trigger_fields.  voltage_to_raw is the conversion
closure supplied by the owning probe. -/
def AnalogTrigger.intoTriggerFields (t : AnalogTrigger) (voltageToRaw : ℚ → ℚ) :
    Except TriggerError String :=
  let rawLevel : ℤ := ratTrunc (voltageToRaw t.level / 4 + 1/2)
  if rawLevel < -1023 ∨ rawLevel > 1023 then .error (.voltageOutOfRange t.level)
  else .ok (t.behavior.asStr ++ toString rawLevel ++ " 0")

/-!
Serial terminal model (src/src/serial_terminal.rs).  Bytes are naturals;
the outcome of each serial read attempt is a trace event, and loops are
driven by a finite event trace: an operation that is still looping when the
trace runs out returns none.  The elapsed-time value paired with each event
is the wall-clock reading that Instant::elapsed would report at the check
following that read.
-/

/-- One outcome of a single serial read attempt, matching the match arms of
the Rust read loops: Ok(n > 0) is data with a nonempty byte list, Ok(0) is
data [], and the error kinds mirror ErrorKind. -/
inductive SerialEvent
  | data (bytes : List ℕ)
  | timedOut
  | brokenPipe
  | unexpectedEof
  | otherIoError
deriving DecidableEq

/-- Errors of enum FleaTerminalError used by the modelled paths.  The two
strings carried by Timeout (expected prompt and from_utf8_lossy of the
trailing response bytes) are kept as byte lists. -/
inductive FleaTerminalError
  | timeout (expected : List ℕ) (actual : List ℕ)
  | connectionLost
  | ioError
deriving DecidableEq

/-- struct BusyFleaTerminal: accumulated response, the completion marker
(prompt bytes, 62 32 for "> "), and the done flag.  The start Instant is
represented by the elapsed values on the trace. -/
structure BusyFleaTerminal where
  response : List ℕ
  promptBytes : List ℕ
  done : Bool
deriving DecidableEq

/-- The trailing-marker test shared by the read loops: the response is at
least as long as the prompt and its last prompt.length bytes equal it. -/
def checkPromptAtEnd (response promptBytes : List ℕ) : Bool :=
  decide (promptBytes.length ≤ response.length) &&
    decide (response.drop (response.length - promptBytes.length) = promptBytes)

/-- The actual_ending computation of the timeout branches: the last two
response bytes, or the whole response when shorter. -/
def actualEnding (response : List ℕ) : List ℕ :=
  if 2 ≤ response.length then response.drop (response.length - 2) else response

/-- ASCII whitespace, standing in for the char::is_whitespace test of
str::trim on the byte level. -/
def isAsciiWhitespace (c : ℕ) : Bool :=
  c = 9 || c = 10 || c = 11 || c = 12 || c = 13 || c = 32

/-- str::trim on byte lists. -/
def trimBytes (l : List ℕ) : List ℕ :=
  ((l.dropWhile isAsciiWhitespace).reverse.dropWhile isAsciiWhitespace).reverse

/-- The body of BusyFleaTerminal::is_ready for one read event: return early
when already done, extend the response and re-test the marker on data,
ignore empty reads and read timeouts, report a lost connection on broken
pipe or unexpected EOF, and abort the process on any other read error. -/
inductive StepOutcome
  | ok (b : BusyFleaTerminal)
  | connLost
  | panicked
deriving DecidableEq

/-- BusyFleaTerminal::is_ready on one trace event. -/
def isReady (b : BusyFleaTerminal) (ev : SerialEvent) : StepOutcome :=
  if b.done then .ok b
  else
    match ev with
    | .data [] => .ok b
    | .data bytes =>
      let response := b.response ++ bytes
      .ok { b with
              response := response
              done := checkPromptAtEnd response b.promptBytes }
    | .timedOut => .ok b
    | .brokenPipe => .connLost
    | .unexpectedEof => .connLost
    | .otherIoError => .panicked

/-- BusyFleaTerminal::generate_result: strip the trailing marker, decode
and trim.  String decoding is modelled as the identity on bytes. -/
def generateResult (b : BusyFleaTerminal) : List ℕ :=
  trimBytes (b.response.take (b.response.length - b.promptBytes.length))

/-- Result of BusyFleaTerminal::wait_timeout.  completed corresponds to
Ok((response, IdleFleaTerminal)); failed carries the BusyFleaTerminal
returned inside the Err pair, so the connection value stays Busy. -/
inductive WaitOutcome
  | completed (payload : List ℕ)
  | failed (busy : BusyFleaTerminal) (e : FleaTerminalError)
  | panicked
deriving DecidableEq

/-- BusyFleaTerminal::wait_timeout over an event trace: call is_ready, on
completion generate the result, on a lost connection fail, otherwise fail
with Timeout once the elapsed reading reaches the timeout, else keep
looping. -/
def waitTimeout (timeout : ℕ) (b : BusyFleaTerminal) :
    List (SerialEvent × ℕ) → Option WaitOutcome
  | [] => none
  | (ev, elapsed) :: rest =>
    match isReady b ev with
    | .panicked => some .panicked
    | .connLost => some (.failed b .connectionLost)
    | .ok b' =>
      if b'.done then some (.completed (generateResult b'))
      else if timeout ≤ elapsed then
        some (.failed b' (.timeout b'.promptBytes (actualEnding b'.response)))
      else waitTimeout timeout b' rest

/-- FleaPreTerminal::exec read loop over an event trace (the command write
is not part of the loop).  On data the marker is re-tested with no timeout
check; on an empty read or a read timeout the caller timeout is tested
against the elapsed reading; any other read error returns an Io error. -/
def execLoop (promptBytes : List ℕ) (timeout : Option ℕ) (response : List ℕ) :
    List (SerialEvent × ℕ) → Option (Except FleaTerminalError (List ℕ))
  | [] => none
  | (ev, elapsed) :: rest =>
    match ev with
    | .data [] =>
      match timeout with
      | some t =>
        if t ≤ elapsed then
          some (.error (.timeout promptBytes (actualEnding response)))
        else execLoop promptBytes timeout response rest
      | none => execLoop promptBytes timeout response rest
    | .data bytes =>
      let response' := response ++ bytes
      if checkPromptAtEnd response' promptBytes then
        some (.ok (trimBytes (response'.take (response'.length - promptBytes.length))))
      else execLoop promptBytes timeout response' rest
    | .timedOut =>
      match timeout with
      | some t =>
        if t ≤ elapsed then
          some (.error (.timeout promptBytes (actualEnding response)))
        else execLoop promptBytes timeout response rest
      | none => execLoop promptBytes timeout response rest
    | .brokenPipe => some (.error .ioError)
    | .unexpectedEof => some (.error .ioError)
    | .otherIoError => some (.error .ioError)

/-- Return discipline of IdleFleaTerminal::exec_sync: the Rust signature
returns a bare String, so an Err from exec can only surface as a process
panic (the expect call). -/
inductive PanicOr (α : Type)
  | value (a : α)
  | panicked (msg : String)
deriving DecidableEq

/-- IdleFleaTerminal::exec_sync: run the exec read loop and unwrap the
result with expect. -/
def execSync (promptBytes : List ℕ) (timeout : Option ℕ)
    (trace : List (SerialEvent × ℕ)) : Option (PanicOr (List ℕ)) :=
  match execLoop promptBytes timeout [] trace with
  | none => none
  | some (.ok s) => some (.value s)
  | some (.error _) => some (.panicked "Failed to execute command")

/-- The two byte queues of the serial port handle: bytes buffered by the OS
waiting to be read, and bytes the program has written. -/
structure SerialBuf where
  incoming : List ℕ
  written : List ℕ
deriving DecidableEq

/-- BusyFleaTerminal::cancel: send_ctrl_c writes the single interrupt byte
0x03, and nothing else happens — the method takes &mut self, reads
nothing, clears nothing, and returns unit, so the handle stays Busy with
its partial response intact. -/
def cancel (b : BusyFleaTerminal) (m : SerialBuf) : BusyFleaTerminal × SerialBuf :=
  (b, { m with written := m.written ++ [3] })

/-! Helper lemmas about the mask folds of the digital trigger encoder. -/

lemma foldl_mask_testBit (p : Fin 9 → Prop) [DecidablePred p] (l : List (Fin 9)) (acc : ℕ)
    (j : ℕ) :
    (l.foldl (fun a i => if p i then a ||| (1 <<< (i : ℕ)) else a) acc).testBit j
      = (acc.testBit j || l.any fun i => decide (p i) && decide ((i : ℕ) = j)) := by
  induction l generalizing acc with
  | nil => simp
  | cons i l ih =>
    simp only [List.foldl_cons, List.any_cons]
    rw [ih]
    by_cases hp : p i
    · simp only [hp, if_true, decide_True, Bool.true_and, Nat.testBit_or,
        Nat.shiftLeft_eq, one_mul, Nat.testBit_two_pow, Bool.or_assoc]
    · simp only [hp, if_false, decide_False, Bool.false_and, Bool.false_or]

lemma relevantBits_testBit (s : Fin 9 → BitState) (j : Fin 9) :
    (relevantBits s).testBit (j : ℕ) = decide (s j ≠ .DontCare) := by
  unfold relevantBits
  rw [foldl_mask_testBit (fun i => s i ≠ BitState.DontCare)]
  rw [Nat.zero_testBit, Bool.false_or, Bool.eq_iff_iff]
  simp only [List.any_eq_true, Bool.and_eq_true, decide_eq_true_eq, List.mem_finRange,
    true_and]
  constructor
  · rintro ⟨i, hi, hij⟩
    exact Fin.ext hij ▸ hi
  · intro hj
    exact ⟨j, hj, rfl⟩

lemma activeBits_testBit (s : Fin 9 → BitState) (j : Fin 9) :
    (activeBits s).testBit (j : ℕ) = decide (s j = .High) := by
  unfold activeBits
  rw [foldl_mask_testBit (fun i => s i = BitState.High)]
  rw [Nat.zero_testBit, Bool.false_or, Bool.eq_iff_iff]
  simp only [List.any_eq_true, Bool.and_eq_true, decide_eq_true_eq, List.mem_finRange,
    true_and]
  constructor
  · rintro ⟨i, hi, hij⟩
    exact Fin.ext hij ▸ hi
  · intro hj
    exact ⟨j, hj, rfl⟩

lemma foldl_mask_lt (p : Fin 9 → Prop) [DecidablePred p] (l : List (Fin 9)) (acc : ℕ)
    (h : acc < 2 ^ 9) :
    l.foldl (fun a i => if p i then a ||| (1 <<< (i : ℕ)) else a) acc < 2 ^ 9 := by
  induction l generalizing acc with
  | nil => exact h
  | cons i l ih =>
    simp only [List.foldl_cons]
    apply ih
    by_cases hp : p i
    · rw [if_pos hp]
      refine Nat.or_lt_two_pow h ?_
      rw [Nat.shiftLeft_eq, one_mul]
      exact Nat.pow_lt_pow_right one_lt_two i.isLt
    · rwa [if_neg hp]

lemma relevantBits_lt (s : Fin 9 → BitState) : relevantBits s < 2 ^ 9 :=
  foldl_mask_lt _ _ _ (by norm_num)

lemma activeBits_lt (s : Fin 9 → BitState) : activeBits s < 2 ^ 9 :=
  foldl_mask_lt _ _ _ (by norm_num)

/-- Claim C8: for every assignment of the 9 digital channel states and every
behavior tag, the encoder renders prefix ++ "0x" ++ activeMask ++ " 0x" ++
relevantMask in two-digit lowercase hex, where the relevant mask has exactly
the bits of the non-DontCare positions and the active mask exactly the bits
of the High positions; in particular bit0 High, bit1 Low, others DontCare
with behavior While encodes to "0x01 0x03". -/
theorem digital_trigger_encoding :
    (∀ (t : DigitalTrigger) (j : Fin 9),
        (activeBits t.bitStates).testBit (j : ℕ) = decide (t.bitStates j = .High) ∧
        (relevantBits t.bitStates).testBit (j : ℕ) = decide (t.bitStates j ≠ .DontCare) ∧
        t.intoTriggerFields =
          t.behavior.asStr ++ "0x" ++ hex02 (activeBits t.bitStates) ++ " 0x" ++
            hex02 (relevantBits t.bitStates)) ∧
    ((BitTriggerBuilder.new.setBit 0 .High).setBit 1 .Low).isMatching.intoTriggerFields =
      "0x01 0x03" :=
  ⟨fun t j => ⟨activeBits_testBit _ j, relevantBits_testBit _ j, rfl⟩, by decide⟩

/-- Claim C10: for every digital trigger the encoded active mask is a
bitwise subset of the relevant mask (active AND NOT relevant is zero on the
9-bit domain) and both masks are below 2 to the 9. -/
theorem digital_trigger_mask_subset :
    ∀ t : DigitalTrigger,
      activeBits t.bitStates &&& ((2 ^ 9 - 1) ^^^ relevantBits t.bitStates) = 0 ∧
      activeBits t.bitStates < 2 ^ 9 ∧ relevantBits t.bitStates < 2 ^ 9 := by
  intro t
  refine ⟨?_, activeBits_lt _, relevantBits_lt _⟩
  apply Nat.eq_of_testBit_eq
  intro i
  rw [Nat.testBit_and, Nat.testBit_xor, Nat.testBit_two_pow_sub_one, Nat.zero_testBit]
  by_cases hi : i < 9
  · have ha := activeBits_testBit t.bitStates ⟨i, hi⟩
    have hr := relevantBits_testBit t.bitStates ⟨i, hi⟩
    rw [ha, hr, decide_eq_true hi]
    by_cases hs : t.bitStates ⟨i, hi⟩ = .High
    · have hdc : t.bitStates ⟨i, hi⟩ ≠ .DontCare := by rw [hs]; exact fun h => by cases h
      simp [hs, hdc]
    · simp [hs]
  · have ha : (activeBits t.bitStates).testBit i = false :=
      Nat.testBit_lt_two_pow
        (lt_of_lt_of_le (activeBits_lt _)
          (Nat.pow_le_pow_right (by norm_num) (le_of_not_lt hi)))
    simp [ha, hi]

/-- Claim C9: for every analog trigger with level v and conversion f, the
encoder computes rawLevel as truncate of f(v)/4 + 0.5; when rawLevel lies
in the closed interval from -1023 to 1023 it renders prefix, rawLevel and
a trailing " 0", otherwise it fails with the voltage-out-of-range error and
produces no trigger string; in particular with f(v) = 100v, rising edge at
1.5V encodes to "+38 0". -/
theorem analog_trigger_encoding :
    (∀ (t : AnalogTrigger) (f : ℚ → ℚ),
        (-1023 ≤ ratTrunc (f t.level / 4 + 1/2) → ratTrunc (f t.level / 4 + 1/2) ≤ 1023 →
          t.intoTriggerFields f =
            .ok (t.behavior.asStr ++ toString (ratTrunc (f t.level / 4 + 1/2)) ++ " 0")) ∧
        (ratTrunc (f t.level / 4 + 1/2) < -1023 ∨ 1023 < ratTrunc (f t.level / 4 + 1/2) →
          t.intoTriggerFields f = .error (.voltageOutOfRange t.level))) ∧
    (AnalogTrigger.risingEdge (3/2)).intoTriggerFields (fun v => v * 100) = .ok "+38 0" := by
  constructor
  · intro t f
    constructor
    · intro h1 h2
      rw [AnalogTrigger.intoTriggerFields, if_neg]
      push_neg
      exact ⟨by omega, by omega⟩
    · intro h
      rw [AnalogTrigger.intoTriggerFields, if_pos h]
  · norm_num [AnalogTrigger.intoTriggerFields, AnalogTrigger.risingEdge, ratTrunc,
      AnalogTriggerBehavior.asStr]
    decide

/-- Witness for C9 at the concrete spec example. -/
theorem analog_trigger_encoding_witness :
    (AnalogTrigger.risingEdge (3/2)).intoTriggerFields (fun v => v * 100) =
      .ok ((AnalogTrigger.risingEdge (3/2)).behavior.asStr ++
        toString (ratTrunc ((fun v => v * 100) (AnalogTrigger.risingEdge (3/2)).level / 4 + 1/2))
          ++ " 0") := by
  refine (analog_trigger_encoding.1 (AnalogTrigger.risingEdge (3/2)) (fun v => v * 100)).1 ?_ ?_ <;>
    norm_num [AnalogTrigger.risingEdge, ratTrunc]

/-- Claim C2 (amended): cancel on a Busy connection sends exactly the
single interrupt byte 0x03 and does nothing else — no bytes are read or
drained, the incoming buffer is not flushed, the partial response buffer is
untouched, and the handle stays Busy. -/
theorem cancel_sends_interrupt_only :
    ∀ (b : BusyFleaTerminal) (m : SerialBuf),
      cancel b m = (b, ⟨m.incoming, m.written ++ [3]⟩) := by
  intro b m
  rfl

/-- Counterexample for C2 as stated: at a concrete Busy state with residual
bytes buffered by the OS, cancel leaves every residual byte in place, so no
blocking drain to the completion marker and no flush happen, contradicting
the claimed guarantee that the next command sees no residual bytes. -/
theorem cancel_no_drain_counterexample :
    (cancel ⟨[115], [62, 32], false⟩ ⟨[99, 62, 32], []⟩).2.incoming = [99, 62, 32] ∧
    (cancel ⟨[115], [62, 32], false⟩ ⟨[99, 62, 32], []⟩).2.incoming ≠ [] ∧
    (cancel ⟨[115], [62, 32], false⟩ ⟨[99, 62, 32], []⟩).1 =
      (⟨[115], [62, 32], false⟩ : BusyFleaTerminal) := by
  decide

/-- Claim C3 (amended): when the caller-supplied timeout of wait_timeout
elapses before the trailing response bytes equal the completion marker, the
call returns a Timeout error value carrying the Busy handle, so the caller
may cancel or keep waiting; exec_sync, by contrast, unwraps the loop result
with expect and therefore panics whenever its caller-supplied timeout
elapses. -/
theorem sync_timeout_behavior :
    (∀ (timeout : ℕ) (b b' : BusyFleaTerminal) (ev : SerialEvent) (elapsed : ℕ)
        (rest : List (SerialEvent × ℕ)),
        isReady b ev = .ok b' → b'.done = false → timeout ≤ elapsed →
        waitTimeout timeout b ((ev, elapsed) :: rest) =
          some (.failed b' (.timeout b'.promptBytes (actualEnding b'.response)))) ∧
    (∀ (promptBytes : List ℕ) (t : ℕ) (trace : List (SerialEvent × ℕ))
        (e : FleaTerminalError),
        execLoop promptBytes (some t) [] trace = some (.error e) →
        execSync promptBytes (some t) trace = some (.panicked "Failed to execute command")) := by
  constructor
  · intro timeout b b' ev elapsed rest hstep hdone ht
    rw [waitTimeout, hstep]
    simp [hdone, ht]
  · intro pb t tr e h
    rw [execSync, h]

/-- Witness for C3 at a concrete timed-out trace. -/
theorem sync_timeout_behavior_witness :
    waitTimeout 100 ⟨[65], [62, 32], false⟩ [(.timedOut, 150)] =
      some (.failed ⟨[65], [62, 32], false⟩ (.timeout [62, 32] [65])) ∧
    execSync [62, 32] (some 100) [(.timedOut, 150)] =
      some (.panicked "Failed to execute command") := by
  constructor
  · exact sync_timeout_behavior.1 100 ⟨[65], [62, 32], false⟩ ⟨[65], [62, 32], false⟩
      .timedOut 150 [] (by decide) (by decide) (by decide)
  · exact sync_timeout_behavior.2 [62, 32] 100 [(.timedOut, 150)]
      (.timeout [62, 32] []) (by decide)

/-- Counterexample for C3 as stated: a concrete synchronous execution whose
timeout elapses does not return a Timeout error value — exec_sync has no
error channel at all and the run ends in the expect panic. -/
theorem exec_sync_timeout_counterexample :
    execSync [62, 32] (some 200) [(.data [97], 0), (.timedOut, 250)] =
      some (.panicked "Failed to execute command") := by
  decide

/-- For the probe multipliers that exist (1 and 10), the f64::EPSILON
comparison of the decoded calibration values is exact equality: the decoded
values lie on a grid with spacing at least one tenth. -/
lemma decoded_eps_iff_eq (m : ℤ) (hm : m = 1 ∨ m = 10) (zr v3 : ℤ) :
    |((zr : ℚ) - 1000 + 2048) - ((v3 : ℚ) - 1000) / (m : ℚ)| < f64Epsilon ↔
      (zr : ℚ) - 1000 + 2048 = ((v3 : ℚ) - 1000) / (m : ℚ) := by
  constructor
  · intro h
    rcases hm with hm | hm <;> subst hm
    · have key : ((zr : ℚ) - 1000 + 2048) - ((v3 : ℚ) - 1000) / ((1 : ℤ) : ℚ)
          = ((zr + 2048 - v3 : ℤ) : ℚ) := by push_cast; ring
      rw [key] at h
      have h1 : |((zr + 2048 - v3 : ℤ) : ℚ)| < 1 := lt_trans h (by norm_num [f64Epsilon])
      rw [← Int.cast_abs] at h1
      have h2 : |zr + 2048 - v3| < 1 := by exact_mod_cast h1
      rw [abs_lt] at h2
      have h3 : zr + 2048 - v3 = 0 := by omega
      have h4 : ((zr : ℚ) - 1000 + 2048) - ((v3 : ℚ) - 1000) / ((1 : ℤ) : ℚ) = 0 := by
        rw [key, h3, Int.cast_zero]
      exact sub_eq_zero.mp h4
    · have key : ((zr : ℚ) - 1000 + 2048) - ((v3 : ℚ) - 1000) / ((10 : ℤ) : ℚ)
          = ((10 * (zr + 2048) - (v3 - 1000) - 10000 : ℤ) : ℚ) / 10 := by push_cast; ring
      rw [key] at h
      have h1 : |((10 * (zr + 2048) - (v3 - 1000) - 10000 : ℤ) : ℚ) / 10| < 1 / 10 :=
        lt_trans h (by norm_num [f64Epsilon])
      rw [abs_div] at h1
      have h2 : |((10 * (zr + 2048) - (v3 - 1000) - 10000 : ℤ) : ℚ)| < 1 := by
        rw [show |(10 : ℚ)| = 10 by norm_num] at h1
        linarith
      rw [← Int.cast_abs] at h2
      have h3 : |10 * (zr + 2048) - (v3 - 1000) - 10000| < 1 := by exact_mod_cast h2
      rw [abs_lt] at h3
      have h4 : 10 * (zr + 2048) - (v3 - 1000) - 10000 = 0 := by omega
      have h5 : ((zr : ℚ) - 1000 + 2048) - ((v3 : ℚ) - 1000) / ((10 : ℤ) : ℚ) = 0 := by
        rw [key, h4, Int.cast_zero, zero_div]
      exact sub_eq_zero.mp h5
  · intro h
    rw [h, sub_self, abs_zero]
    norm_num [f64Epsilon]

/-- Claim C5 (amended): loading calibration from flash fails with
CalibrationValuesEqual exactly when the two DECODED values — the zero
offset raw_zero - 1000 + 2048 and the span (raw_3v3 - 1000) / multiplier —
coincide; equality of the raw stored integers is neither necessary nor
sufficient. -/
theorem calibration_equal_check_on_decoded :
    ∀ (p : FleaProbe) (calZeroRaw cal3v3Raw : ℤ),
      p.multiplier = 1 ∨ p.multiplier = 10 →
      (p.readCalibrationFromFlash calZeroRaw cal3v3Raw =
          .error (.calibrationValuesEqual p.multiplier ((calZeroRaw : ℚ) - 1000 + 2048)) ↔
        (calZeroRaw : ℚ) - 1000 + 2048 = ((cal3v3Raw : ℚ) - 1000) / (p.multiplier : ℚ)) := by
  intro p zr v3 hm
  rw [FleaProbe.readCalibrationFromFlash]
  by_cases h : |((zr : ℚ) - 1000 + 2048) - ((v3 : ℚ) - 1000) / (p.multiplier : ℚ)| < f64Epsilon
  · rw [if_pos h]
    have heq := (decoded_eps_iff_eq p.multiplier hm zr v3).mp h
    simp [heq]
  · rw [if_neg h]
    constructor
    · intro hc
      exact absurd hc (by simp)
    · intro he
      exact absurd ((decoded_eps_iff_eq p.multiplier hm zr v3).mpr he) h

/-- Witness for C5: the x1 probe with stored raws 0 and 2048 decodes to the
equal pair (1048, 1048) and is rejected. -/
theorem calibration_equal_check_witness :
    (FleaProbe.new 1).readCalibrationFromFlash 0 2048 =
        .error (.calibrationValuesEqual (FleaProbe.new 1).multiplier
          (((0 : ℤ) : ℚ) - 1000 + 2048)) ↔
      ((0 : ℤ) : ℚ) - 1000 + 2048 = (((2048 : ℤ) : ℚ) - 1000) / ((FleaProbe.new 1).multiplier : ℚ) :=
  calibration_equal_check_on_decoded (FleaProbe.new 1) 0 2048 (Or.inl rfl)

/-- Counterexample for C5 as stated: with multiplier 1 and the two stored
raw integers both equal to 1000 the load succeeds (the decoded values are
2048 and 0), and with unequal raws 0 and 2048 it fails — so failure is not
equivalent to equality of the raw stored values. -/
theorem calibration_equal_raw_counterexample :
    (FleaProbe.new 1).readCalibrationFromFlash 1000 1000 = .ok ⟨1, some 2048, some 0⟩ ∧
    (FleaProbe.new 1).readCalibrationFromFlash 0 2048 =
      .error (.calibrationValuesEqual 1 1048) := by
  constructor <;>
    norm_num [FleaProbe.readCalibrationFromFlash, FleaProbe.new, f64Epsilon, abs]

/-- Claim C6: for every probe whose zero and span are both set before a
successful zero calibration, the physical full-scale point is preserved:
the new zero plus the new span equals the old zero plus the old span, which
is the raw value voltage_to_raw assigns to 3.3V under the old calibration. -/
theorem calibrate_zero_preserves_full_scale :
    ∀ (p : FleaProbe) (bncValues : List ℚ) (z s c : ℚ) (p' : FleaProbe),
      p.calZero = some z → p.cal3v3 = some s →
      calibrateZero p bncValues = .ok (p', c) →
      ∃ z' s', p'.calZero = some z' ∧ p'.cal3v3 = some s' ∧ z' + s' = z + s := by
  intro p bnc z s c p' hz hs hok
  rw [calibrateZero.eq_def] at hok
  rw [hz, hs] at hok
  simp only [Option.isSome_some, and_self, if_true, FleaProbe.voltageToRaw, hz, hs,
    Except.toOption] at hok
  cases bnc with
  | nil => exact absurd hok (by simp)
  | cons v rest =>
    simp only at hok
    by_cases hstable :
        (v :: rest).foldl max v - (v :: rest).foldl min v > 14
    · rw [if_pos hstable] at hok
      exact absurd hok (by simp)
    · rw [if_neg hstable] at hok
      simp only [Except.ok.injEq, Prod.mk.injEq] at hok
      obtain ⟨hp', _⟩ := hok
      subst hp'
      refine ⟨_, _, rfl, rfl, ?_⟩
      have h331 : (33 / 10 : ℚ) / (33 / 10) = 1 := by norm_num
      rw [h331]
      ring

/-- Witness for C6: re-zeroing a probe calibrated with zero 2048 and span
1000 on a stable reading of 100 yields zero 100 and span 2948, preserving
the 3048 full-scale point. -/
theorem calibrate_zero_preserves_witness :
    ∃ z' s', (⟨1, some 100, some 2948⟩ : FleaProbe).calZero = some z' ∧
      (⟨1, some 100, some 2948⟩ : FleaProbe).cal3v3 = some s' ∧ z' + s' = 2048 + 1000 := by
  refine calibrate_zero_preserves_full_scale ⟨1, some 2048, some 1000⟩ [100] 2048 1000
    100 ⟨1, some 100, some 2948⟩ rfl rfl ?_
  norm_num [calibrateZero, FleaProbe.voltageToRaw, Except.toOption]

/-- Claim C7 (amended): with both calibration terms set,
raw_to_voltage(raw) = (raw - zero) / span * 3.3 and
voltage_to_raw(v) = v / 3.3 * span + zero; provided the span is nonzero the
round trip raw_to_voltage(voltage_to_raw(v)) returns exactly v, in
particular 3.3 for v = 3.3 with zero 2048 and span 1000; both conversions
fail with CalibrationNotSet whenever either term is absent. -/
theorem raw_voltage_conversion :
    (∀ (p : FleaProbe) (z s raw v : ℚ), p.calZero = some z → p.cal3v3 = some s →
        p.rawToVoltage raw = .ok ((raw - z) / s * (33/10)) ∧
        p.voltageToRaw v = .ok (v / (33/10) * s + z) ∧
        (s ≠ 0 → ∀ r, p.voltageToRaw v = .ok r → p.rawToVoltage r = .ok v)) ∧
    (∀ (p : FleaProbe) (raw v : ℚ), p.calZero = none ∨ p.cal3v3 = none →
        p.rawToVoltage raw = .error .calibrationNotSet ∧
        p.voltageToRaw v = .error .calibrationNotSet) ∧
    ((FleaProbe.mk 1 (some 2048) (some 1000)).voltageToRaw (33/10) = .ok 3048 ∧
      (FleaProbe.mk 1 (some 2048) (some 1000)).rawToVoltage 3048 = .ok (33/10)) := by
  refine ⟨?_, ?_, ?_, ?_⟩
  · intro p z s raw v hz hs
    refine ⟨?_, ?_, ?_⟩
    · simp [FleaProbe.rawToVoltage, hz, hs]
    · simp [FleaProbe.voltageToRaw, hz, hs]
    · intro hsne r hr
      simp only [FleaProbe.voltageToRaw, hz, hs, Except.ok.injEq] at hr
      simp only [FleaProbe.rawToVoltage, hz, hs, ← hr, Except.ok.injEq]
      field_simp
      ring
  · intro p raw v h
    have hra : p.rawToVoltage raw = .error .calibrationNotSet := by
      rcases h with h | h
      · simp [FleaProbe.rawToVoltage, h]
      · cases hcz : p.calZero <;> simp [FleaProbe.rawToVoltage, h, hcz]
    have hvr : p.voltageToRaw v = .error .calibrationNotSet := by
      rcases h with h | h
      · simp [FleaProbe.voltageToRaw, h]
      · cases hcz : p.calZero <;> simp [FleaProbe.voltageToRaw, h, hcz]
    exact ⟨hra, hvr⟩
  · norm_num [FleaProbe.voltageToRaw]
  · norm_num [FleaProbe.rawToVoltage]

/-- Witness for C7: the round trip at zero 2048, span 1000, v = 3.3. -/
theorem raw_voltage_conversion_witness :
    (FleaProbe.mk 1 (some 2048) (some 1000)).rawToVoltage
        ((33/10) / (33/10) * 1000 + 2048) = .ok (33/10) := by
  have h := raw_voltage_conversion.1 (FleaProbe.mk 1 (some 2048) (some 1000))
    2048 1000 3048 (33/10) rfl rfl
  exact h.2.2 (by norm_num) _ h.2.1

/-- Counterexample for C7 as stated: a probe with both terms set but span
zero breaks the round trip — voltage_to_raw(3.3) returns the zero offset
and raw_to_voltage of it divides by the zero span (NaN in f64, 0 in this
rational model), which is not within any floating tolerance of 3.3. -/
theorem raw_voltage_roundtrip_zero_span_counterexample :
    (FleaProbe.mk 1 (some 0) (some 0)).voltageToRaw (33/10) = .ok 0 ∧
    (FleaProbe.mk 1 (some 0) (some 0)).rawToVoltage 0 = .ok 0 ∧
    ¬ |(0 : ℚ) - 33/10| < 1/1000 := by
  refine ⟨?_, ?_, by rw [zero_sub, abs_neg]; norm_num [abs]⟩
  · norm_num [FleaProbe.voltageToRaw]
  · norm_num [FleaProbe.rawToVoltage]

/-! Helper lemmas for the raw_read validation pipeline. -/

lemma ratTrunc_eq_floor (q : ℚ) (h : 0 ≤ q) : ratTrunc q = ⌊q⌋ := if_pos h

lemma asSecsF64_not_neg (d : Duration) : ¬ d.asSecsF64 < 0 := by
  rw [Duration.asSecsF64, not_lt]
  positivity

lemma asSecsF64_gt_349_iff (d : Duration) :
    d.asSecsF64 > 349/100 ↔ 3490000000 < d.nanos := by
  rw [Duration.asSecsF64, gt_iff_lt, lt_div_iff₀ (by norm_num : (0:ℚ) < 1000000000)]
  rw [show (349 : ℚ)/100 * 1000000000 = ((3490000000 : ℕ) : ℚ) by norm_num]
  exact Nat.cast_lt

lemma asSecsF64_gt_one_iff (d : Duration) :
    d.asSecsF64 > 1 ↔ 1000000000 < d.nanos := by
  rw [Duration.asSecsF64, gt_iff_lt, lt_div_iff₀ (by norm_num : (0:ℚ) < 1000000000)]
  rw [show (1 : ℚ) * 1000000000 = ((1000000000 : ℕ) : ℚ) by norm_num]
  exact Nat.cast_lt

lemma small_cond_iff (d : Duration) :
    (d.asSecs = 0 ∧ d.asMicros < 111) ↔ d.nanos < 111000 := by
  simp only [Duration.asSecs, Duration.asMicros]
  omega

lemma number1_eval (u : ℕ) :
    ratTrunc (MSPS * (u : ℚ) / TOTAL_SAMPLES) = ⌊MSPS * (u : ℚ) / TOTAL_SAMPLES⌋ := by
  rw [ratTrunc_eq_floor]
  rw [MSPS, TOTAL_SAMPLES]
  positivity

lemma number1_pos (u : ℕ) (h : 112 ≤ u) : 1 ≤ ⌊MSPS * (u : ℚ) / TOTAL_SAMPLES⌋ := by
  rw [Int.le_floor, MSPS, TOTAL_SAMPLES, le_div_iff₀ (by norm_num : (0:ℚ) < 2000)]
  have hu : (112 : ℚ) ≤ (u : ℚ) := by exact_mod_cast h
  push_cast
  linarith

lemma number1_nonpos (u : ℕ) (h : u ≤ 111) : ⌊MSPS * (u : ℚ) / TOTAL_SAMPLES⌋ ≤ 0 := by
  have hlt : ⌊MSPS * (u : ℚ) / TOTAL_SAMPLES⌋ < 1 := by
    rw [Int.floor_lt, MSPS, TOTAL_SAMPLES, div_lt_iff₀ (by norm_num : (0:ℚ) < 2000)]
    have hu : (u : ℚ) ≤ 111 := by exact_mod_cast h
    push_cast
    linarith
  omega

lemma number1_le (u : ℕ) (h : u ≤ 3490000) : ⌊MSPS * (u : ℚ) / TOTAL_SAMPLES⌋ ≤ 31410 := by
  have hlt : ⌊MSPS * (u : ℚ) / TOTAL_SAMPLES⌋ < 31411 := by
    rw [Int.floor_lt, MSPS, TOTAL_SAMPLES, div_lt_iff₀ (by norm_num : (0:ℚ) < 2000)]
    have hu : (u : ℚ) ≤ 3490000 := by exact_mod_cast h
    push_cast
    linarith
  omega

/-- For every tick count reachable from a valid time frame the prescaler
derivation succeeds and the resulting prescaler is at least 33. -/
lemma number1ToPrescaler_ok (n : ℤ) (h1 : 1 ≤ n) (h2 : n ≤ 31410) :
    ∃ p, number1ToPrescaler n = .ok p ∧ 33 ≤ p := by
  have hnq1 : (1 : ℚ) ≤ (n : ℚ) := by exact_mod_cast h1
  have hnq2 : (n : ℚ) ≤ 31410 := by exact_mod_cast h2
  by_cases hn : n > 1000
  · have hnq3 : (1001 : ℚ) ≤ (n : ℚ) := by exact_mod_cast hn
    have hq0 : (0 : ℚ) ≤ MCU_MHZ * (n : ℚ) * INTERLEAVE / (((16 : ℤ)) : ℚ) / MSPS + 1/2 := by
      rw [MCU_MHZ, INTERLEAVE, MSPS]
      positivity
    have h3 : 3 ≤ ⌊MCU_MHZ * (n : ℚ) * INTERLEAVE / (((16 : ℤ)) : ℚ) / MSPS + 1/2⌋ := by
      rw [Int.le_floor, MCU_MHZ, INTERLEAVE, MSPS]
      push_cast
      linarith
    have h65 : ⌊MCU_MHZ * (n : ℚ) * INTERLEAVE / (((16 : ℤ)) : ℚ) / MSPS + 1/2⌋ ≤ 65535 := by
      have : ⌊MCU_MHZ * (n : ℚ) * INTERLEAVE / (((16 : ℤ)) : ℚ) / MSPS + 1/2⌋ < 65536 := by
        rw [Int.floor_lt, MCU_MHZ, INTERLEAVE, MSPS]
        push_cast
        linarith
      omega
    refine ⟨16 * ⌊MCU_MHZ * (n : ℚ) * INTERLEAVE / (((16 : ℤ)) : ℚ) / MSPS + 1/2⌋, ?_, by omega⟩
    simp only [number1ToPrescaler, if_pos hn, ratTrunc_eq_floor _ hq0]
    rw [if_neg (by omega), if_neg (by omega)]
  · have hnq3 : (n : ℚ) ≤ 1000 := by exact_mod_cast not_lt.mp hn
    have hq0 : (0 : ℚ) ≤ MCU_MHZ * (n : ℚ) * INTERLEAVE / (((1 : ℤ)) : ℚ) / MSPS + 1/2 := by
      rw [MCU_MHZ, INTERLEAVE, MSPS]
      positivity
    have h33 : 33 ≤ ⌊MCU_MHZ * (n : ℚ) * INTERLEAVE / (((1 : ℤ)) : ℚ) / MSPS + 1/2⌋ := by
      rw [Int.le_floor, MCU_MHZ, INTERLEAVE, MSPS]
      push_cast
      linarith
    have h65 : ⌊MCU_MHZ * (n : ℚ) * INTERLEAVE / (((1 : ℤ)) : ℚ) / MSPS + 1/2⌋ ≤ 65535 := by
      have : ⌊MCU_MHZ * (n : ℚ) * INTERLEAVE / (((1 : ℤ)) : ℚ) / MSPS + 1/2⌋ < 65536 := by
        rw [Int.floor_lt, MCU_MHZ, INTERLEAVE, MSPS]
        push_cast
        linarith
      omega
    refine ⟨1 * ⌊MCU_MHZ * (n : ℚ) * INTERLEAVE / (((1 : ℤ)) : ℚ) / MSPS + 1/2⌋, ?_, by omega⟩
    simp only [number1ToPrescaler, if_neg hn, ratTrunc_eq_floor _ hq0]
    rw [if_neg (by omega), if_neg (by omega)]

/-- None for the delay argument is the same as an explicit zero delay. -/
lemma rawRead_none_eq (d : Duration) (trig : String) :
    rawRead d trig none = rawRead d trig (some ⟨0⟩) := rfl

lemma rawRead_too_large (d : Duration) (trig : String) (dly? : Option Duration)
    (h : 3490000000 < d.nanos) :
    rawRead d trig dly? = .error .timeFrameTooLarge := by
  simp only [rawRead]
  rw [if_neg (asSecsF64_not_neg d), if_pos ((asSecsF64_gt_349_iff d).mpr h)]

lemma rawRead_too_small (d : Duration) (trig : String) (dly? : Option Duration)
    (h1 : d.nanos ≤ 3490000000) (h2 : d.nanos < 111000) :
    rawRead d trig dly? = .error .timeFrameTooSmall := by
  simp only [rawRead]
  rw [if_neg (asSecsF64_not_neg d),
    if_neg (by rw [asSecsF64_gt_349_iff]; omega),
    if_pos ((small_cond_iff d).mpr h2)]

lemma rawRead_ticks_err (d : Duration) (trig : String) (dly : Duration)
    (h1 : 111000 ≤ d.nanos) (h2 : d.nanos < 112000) (h3 : dly.nanos ≤ 1000000000) :
    rawRead d trig (some dly) = .error .invalidTicksPerSample := by
  have c6 : ratTrunc (MSPS * (d.asMicros : ℚ) / TOTAL_SAMPLES) ≤ 0 := by
    rw [number1_eval]
    exact number1_nonpos d.asMicros (by simp only [Duration.asMicros]; omega)
  simp only [rawRead, Option.getD_some]
  rw [if_neg (asSecsF64_not_neg d),
    if_neg (by rw [asSecsF64_gt_349_iff]; omega),
    if_neg (by rw [small_cond_iff]; omega),
    if_neg (asSecsF64_not_neg dly),
    if_neg (by rw [asSecsF64_gt_one_iff]; omega),
    if_pos c6]

lemma rawRead_ok (d : Duration) (trig : String) (dly : Duration)
    (h1 : 112000 ≤ d.nanos) (h2 : d.nanos ≤ 3490000000) (h3 : dly.nanos ≤ 1000000000) :
    ∃ (n p : ℤ),
      n = ratTrunc (MSPS * (d.asMicros : ℚ) / TOTAL_SAMPLES) ∧ 1 ≤ n ∧
      number1ToPrescaler n = .ok p ∧ 33 ≤ p ∧
      rawRead d trig (some dly) =
        .ok ⟨n, trig,
          ratTrunc ((dly.asMicros : ℚ) * prescalerToEffectiveMsps p / 1000000)⟩ ∧
      ratTrunc ((dly.asMicros : ℚ) * prescalerToEffectiveMsps p / 1000000) ≤ 1000000 := by
  have hu1 : 112 ≤ d.asMicros := by simp only [Duration.asMicros]; omega
  have hu2 : d.asMicros ≤ 3490000 := by simp only [Duration.asMicros]; omega
  have hn1 : 1 ≤ ratTrunc (MSPS * (d.asMicros : ℚ) / TOTAL_SAMPLES) := by
    rw [number1_eval]
    exact number1_pos d.asMicros hu1
  have hn2 : ratTrunc (MSPS * (d.asMicros : ℚ) / TOTAL_SAMPLES) ≤ 31410 := by
    rw [number1_eval]
    exact number1_le d.asMicros hu2
  obtain ⟨p, hp, hp33⟩ :=
    number1ToPrescaler_ok (ratTrunc (MSPS * (d.asMicros : ℚ) / TOTAL_SAMPLES)) hn1 hn2
  have hpq : (33 : ℚ) ≤ (p : ℚ) := by exact_mod_cast hp33
  have hppos : (0 : ℚ) < (p : ℚ) := by linarith
  have hud : (dly.asMicros : ℚ) ≤ 1000000 := by
    have : dly.asMicros ≤ 1000000 := by simp only [Duration.asMicros]; omega
    exact_mod_cast this
  have hds0 : (0 : ℚ) ≤ (dly.asMicros : ℚ) * prescalerToEffectiveMsps p / 1000000 := by
    rw [prescalerToEffectiveMsps, MCU_MHZ, INTERLEAVE]
    positivity
  have hdsb : ratTrunc ((dly.asMicros : ℚ) * prescalerToEffectiveMsps p / 1000000) ≤ 1000000 := by
    rw [ratTrunc_eq_floor _ hds0]
    have hq19 : (dly.asMicros : ℚ) * prescalerToEffectiveMsps p / 1000000 < 19 := by
      rw [prescalerToEffectiveMsps, MCU_MHZ, INTERLEAVE]
      have hfrac : (120 * 5 : ℚ) / (p : ℚ) ≤ 120 * 5 / 33 := by
        apply div_le_div_of_nonneg_left (by norm_num) (by norm_num) hpq
      have hfr0 : (0 : ℚ) ≤ (120 * 5 : ℚ) / (p : ℚ) := by positivity
      have hprod : (dly.asMicros : ℚ) * ((120 * 5 : ℚ) / (p : ℚ)) ≤ 1000000 * (120 * 5 / 33) := by
        apply mul_le_mul hud hfrac hfr0 (by norm_num)
      rw [div_lt_iff₀ (by norm_num : (0:ℚ) < 1000000)]
      calc (dly.asMicros : ℚ) * (120 * 5 / (p : ℚ)) ≤ 1000000 * (120 * 5 / 33) := hprod
        _ < 19 * 1000000 := by norm_num
    have := Int.floor_lt.mpr (by push_cast; linarith : ((dly.asMicros : ℚ) * prescalerToEffectiveMsps p / 1000000) < ((19 : ℤ) : ℚ))
    omega
  refine ⟨_, p, rfl, hn1, hp, hp33, ?_, hdsb⟩
  simp only [rawRead, Option.getD_some]
  rw [if_neg (asSecsF64_not_neg d),
    if_neg (by rw [asSecsF64_gt_349_iff]; omega),
    if_neg (by rw [small_cond_iff]; omega),
    if_neg (asSecsF64_not_neg dly),
    if_neg (by rw [asSecsF64_gt_one_iff]; omega),
    if_neg (by omega : ¬ ratTrunc (MSPS * (d.asMicros : ℚ) / TOTAL_SAMPLES) ≤ 0)]
  simp only [hp]
  rw [if_neg (by omega)]

/-- Claim C1 (amended): raw_read fails with TimeFrameTooSmall exactly when
d is strictly below 111µs and with TimeFrameTooLarge exactly when d exceeds
3.49s; in the Except embedding an error return means no command reaches the
device.  For 111µs ≤ d ≤ 3.49s neither time-frame error is returned: when d
holds at least 112 whole microseconds the read succeeds with a tick count
of at least 1, while for d with exactly 111 whole microseconds raw_read
fails with InvalidTicksPerSample instead (the tick count truncates to 0). -/
theorem raw_read_time_frame_validation :
    ∀ (d : Duration) (trig : String),
      (rawRead d trig none = .error .timeFrameTooSmall ↔ d.nanos < 111000) ∧
      (rawRead d trig none = .error .timeFrameTooLarge ↔ 3490000000 < d.nanos) ∧
      (111000 ≤ d.nanos → d.nanos < 112000 →
        rawRead d trig none = .error .invalidTicksPerSample) ∧
      (112000 ≤ d.nanos → d.nanos ≤ 3490000000 →
        ∃ cmd : ScopeCmd, rawRead d trig none = .ok cmd ∧ 1 ≤ cmd.number1) := by
  intro d trig
  have hticks : 111000 ≤ d.nanos → d.nanos < 112000 →
      rawRead d trig none = .error .invalidTicksPerSample := by
    intro ha hb
    rw [rawRead_none_eq]
    exact rawRead_ticks_err d trig ⟨0⟩ ha hb (by norm_num)
  have hok : 112000 ≤ d.nanos → d.nanos ≤ 3490000000 →
      ∃ cmd : ScopeCmd, rawRead d trig none = .ok cmd ∧ 1 ≤ cmd.number1 := by
    intro ha hb
    rw [rawRead_none_eq]
    obtain ⟨n, p, _, hn1, _, _, heq, _⟩ := rawRead_ok d trig ⟨0⟩ ha hb (by norm_num)
    exact ⟨_, heq, hn1⟩
  refine ⟨⟨?_, ?_⟩, ⟨?_, ?_⟩, hticks, hok⟩
  · intro h
    by_contra hge
    push_neg at hge
    rcases lt_or_le 3490000000 d.nanos with hL | hle
    · rw [rawRead_too_large d trig none hL] at h
      simp at h
    · rcases lt_or_le d.nanos 112000 with hm | hM
      · rw [hticks hge hm] at h
        simp at h
      · obtain ⟨cmd, hcmd, _⟩ := hok hM hle
        rw [hcmd] at h
        simp at h
  · intro h
    rw [rawRead_too_small d trig none (by omega) h]
  · intro h
    by_contra hle
    push_neg at hle
    rcases lt_or_le d.nanos 111000 with hs | hge
    · rw [rawRead_too_small d trig none (by omega) hs] at h
      simp at h
    · rcases lt_or_le d.nanos 112000 with hm | hM
      · rw [hticks hge hm] at h
        simp at h
      · obtain ⟨cmd, hcmd, _⟩ := hok hM hle
        rw [hcmd] at h
        simp at h
  · intro h
    exact rawRead_too_large d trig none h

/-- Witness for C1 at 200µs: a valid read with tick count at least 1, plus
both boundary iffs instantiated. -/
theorem raw_read_time_frame_witness :
    ∃ cmd : ScopeCmd, rawRead ⟨200000⟩ "t" none = .ok cmd ∧ 1 ≤ cmd.number1 :=
  (raw_read_time_frame_validation ⟨200000⟩ "t").2.2.2 (by norm_num) (by norm_num)

/-- Counterexample for C1 as stated: at exactly 111µs, which the claim
places in the TimeFrameTooSmall region (d ≤ 111µs), raw_read fails with
InvalidTicksPerSample, not with TimeFrameTooSmall. -/
theorem raw_read_111us_counterexample :
    rawRead ⟨111000⟩ "" none = .error .invalidTicksPerSample ∧
    rawRead ⟨111000⟩ "" none ≠ .error .timeFrameTooSmall := by
  have h : rawRead ⟨111000⟩ "" none = .error .invalidTicksPerSample := by
    norm_num [rawRead, Duration.asSecsF64, Duration.asSecs, Duration.asMicros, ratTrunc,
      MSPS, TOTAL_SAMPLES]
  refine ⟨h, ?_⟩
  rw [h]
  simp

lemma rawRead_delay_err (d : Duration) (trig : String) (dly : Duration)
    (h1 : 111000 ≤ d.nanos) (h2 : d.nanos ≤ 3490000000) (h3 : 1000000000 < dly.nanos) :
    rawRead d trig (some dly) = .error .delayTooLarge := by
  simp only [rawRead, Option.getD_some]
  rw [if_neg (asSecsF64_not_neg d),
    if_neg (by rw [asSecsF64_gt_349_iff]; omega),
    if_neg (by rw [small_cond_iff]; omega),
    if_neg (asSecsF64_not_neg dly),
    if_pos ((asSecsF64_gt_one_iff dly).mpr h3)]

/-- The delay-sample formula the claim states, written from the words of
the specification (round-half-up of delay_µs times the effective sample
rate in MHz, with no further divisor), for comparison against the formula
the code computes. -/
def specDelaySamples (delayMicros : ℕ) (effectiveMsps : ℚ) : ℤ :=
  ratTrunc ((delayMicros : ℚ) * effectiveMsps + 1/2)

/-- Claim C4 (amended): for a valid time frame, raw_read rejects the delay
with DelayTooLarge exactly when it exceeds 1s, before any sample
conversion; for delays in [0, 1s] the read succeeds and the delay sample
count is truncate(delay_µs * effectiveSampleRate_MHz / 1_000_000) — plain
truncation with an extra division by one million, not round-half-up — and
this count never exceeds 1_000_000, so the DelaySamplesTooLarge guard
cannot fire on valid inputs. -/
theorem delay_samples_conversion :
    ∀ (d dly : Duration) (trig : String),
      (111000 ≤ d.nanos → d.nanos ≤ 3490000000 →
        (rawRead d trig (some dly) = .error .delayTooLarge ↔ 1000000000 < dly.nanos)) ∧
      (112000 ≤ d.nanos → d.nanos ≤ 3490000000 → dly.nanos ≤ 1000000000 →
        ∃ (cmd : ScopeCmd) (p : ℤ),
          rawRead d trig (some dly) = .ok cmd ∧
          number1ToPrescaler cmd.number1 = .ok p ∧
          cmd.delaySamples =
            ratTrunc ((dly.asMicros : ℚ) * prescalerToEffectiveMsps p / 1000000) ∧
          cmd.delaySamples ≤ 1000000) := by
  intro d dly trig
  constructor
  · intro ha hb
    constructor
    · intro h
      by_contra hle
      push_neg at hle
      rcases lt_or_le d.nanos 112000 with hm | hM
      · rw [rawRead_ticks_err d trig dly ha hm hle] at h
        simp at h
      · obtain ⟨n, p, _, _, _, _, heq, _⟩ := rawRead_ok d trig dly hM hb hle
        rw [heq] at h
        simp at h
    · exact rawRead_delay_err d trig dly ha hb
  · intro ha hb hc
    obtain ⟨n, p, hn, hn1, hp, hp33, heq, hbound⟩ := rawRead_ok d trig dly ha hb hc
    exact ⟨_, p, heq, hp, rfl, hbound⟩

/-- Witness for C4: a 1ms frame (prescaler 300, effective rate 2 MHz) with
the maximal 1s delay. -/
theorem delay_samples_conversion_witness :
    ∃ (cmd : ScopeCmd) (p : ℤ),
      rawRead ⟨1000000⟩ "t" (some ⟨1000000000⟩) = .ok cmd ∧
      number1ToPrescaler cmd.number1 = .ok p ∧
      cmd.delaySamples =
        ratTrunc (((⟨1000000000⟩ : Duration).asMicros : ℚ) *
          prescalerToEffectiveMsps p / 1000000) ∧
      cmd.delaySamples ≤ 1000000 :=
  (delay_samples_conversion ⟨1000000⟩ ⟨1000000000⟩ "t").2 (by norm_num) (by norm_num)
    (by norm_num)

/-- Counterexample for C4 as stated: with a 1ms time frame (effective rate
2 MHz) and the allowed delay of exactly 1s, the formula the claim states
yields 2_000_000 samples, above the claimed 1_000_000 rejection threshold,
yet raw_read succeeds and issues a delay of 2 samples — the code divides by
a further 1_000_000 and never adds the 0.5 rounding term. -/
theorem delay_samples_rounding_counterexample :
    rawRead ⟨1000000⟩ "t" (some ⟨1000000000⟩) = .ok ⟨9, "t", 2⟩ ∧
    specDelaySamples 1000000 (prescalerToEffectiveMsps 300) = 2000000 ∧
    (1000000 : ℤ) < 2000000 := by
  refine ⟨?_, ?_, by norm_num⟩
  · norm_num [rawRead, Duration.asSecsF64, Duration.asSecs, Duration.asMicros, ratTrunc,
      MSPS, TOTAL_SAMPLES, number1ToPrescaler, MCU_MHZ, INTERLEAVE, prescalerToEffectiveMsps]
  · norm_num [specDelaySamples, ratTrunc, prescalerToEffectiveMsps, MCU_MHZ, INTERLEAVE]

end FleaScopeRs
